import Mathlib

/-!
Verification of the client-side request orchestration layer of the Ref-Lex
browser extension: the request deduplicator
(src/shared/request-deduplicator.ts), the token-bucket rate limiter
(src/shared/rate-limiter.ts) and the CSRF-aware API client
(src/background/api.ts).

The JavaScript runtime is single-threaded and event-loop based, so
"concurrent" calls are interleavings of synchronous segments between
suspension points.  Each synchronous segment of the source is embedded as a
pure Lean function on an explicit state record; promise identity is embedded
as a natural-number id (two callers holding the same id hold the same
future, hence observe the identical settlement).  JS numbers that only ever
hold integers in the source are embedded as Nat/Int; the token count, whose
type admits fractions, is embedded as a rational.
-/

namespace RefLex

/-! ## Request deduplicator (src/shared/request-deduplicator.ts)

The class state is two maps: `pending : Map<string, Promise>` and
`requestCounts : Map<string, number>`.  A Map is embedded as an association
list with unique keys; `Map.set` replaces in place, `Map.delete` removes the
key.  The pending promise is represented by its id; `nextId` is the supply
of fresh promise ids and `invocations` counts how many times a supplier
function was invoked (one invocation per fresh registration). -/

/-- Embedding of JS `Map.set`: replace the value under an existing key, or
append a fresh entry. -/
def setEntry (k : String) (v : Nat) : List (String × Nat) → List (String × Nat)
  | [] => [(k, v)]
  | (k', v') :: rest => if k' == k then (k, v) :: rest else (k', v') :: setEntry k v rest

/-- Embedding of JS `Map.delete`: remove the entry under the key. -/
def eraseKey (k : String) (l : List (String × Nat)) : List (String × Nat) :=
  l.filter (fun e => e.1 != k)

/-- State of a `RequestDeduplicator` instance, plus the bookkeeping
(`nextId`, `invocations`) that makes supplier invocations and promise
identity observable in the embedding. -/
structure DedupState where
  pending : List (String × Nat)
  requestCounts : List (String × Nat)
  nextId : Nat
  invocations : Nat
deriving DecidableEq, Repr

/-- Synchronous segment of `RequestDeduplicator.dedupe(key, fn)` (lines
35-64): if a promise is already pending under `key`, bump the request count
and return that promise unchanged; otherwise invoke `fn`, register the
resulting promise under `key` and return it.  The returned Nat is the id of
the promise handed to the caller. -/
def dedupe (s : DedupState) (key : String) : DedupState × Nat :=
  match s.pending.lookup key with
  | some pid =>
      let count := ((s.requestCounts.lookup key).getD 1) + 1
      ({ s with requestCounts := setEntry key count s.requestCounts }, pid)
  | none =>
      ({ pending := (key, s.nextId) :: s.pending,
         requestCounts := setEntry key 1 s.requestCounts,
         nextId := s.nextId + 1,
         invocations := s.invocations + 1 }, s.nextId)

/-- The `.finally` handler attached to the registered promise (lines 49-59):
on settlement, delete the `pending` and `requestCounts` entries for the key.
In JS promise semantics this handler runs before the promise returned by
`.finally` (the one stored in `pending` and handed to callers) settles, so
the deletion is observable strictly before the result is. -/
def settle (s : DedupState) (key : String) : DedupState :=
  { s with pending := eraseKey key s.pending,
           requestCounts := eraseKey key s.requestCounts }

/-- N back-to-back `dedupe` calls with the same key, none of which is
separated by a settlement of the registered promise (the "N concurrent
callers" scenario of the single-threaded event loop).  Returns the final
state and the list of promise ids handed to the callers, in call order. -/
def dedupeN : Nat → DedupState → String → DedupState × List Nat
  | 0, s, _ => (s, [])
  | n + 1, s, k =>
      let p := dedupe s k
      let q := dedupeN n p.1 k
      (q.1, p.2 :: q.2)

theorem lookup_cons_self (k : String) (v : Nat) (rest : List (String × Nat)) :
    List.lookup k ((k, v) :: rest) = some v := by
  simp [List.lookup]

theorem lookup_eraseKey (k : String) (l : List (String × Nat)) :
    (eraseKey k l).lookup k = none := by
  induction l with
  | nil => rfl
  | cons e rest ih =>
      obtain ⟨a, b⟩ := e
      by_cases h : a = k
      · simpa [eraseKey, h] using ih
      · have h1 : (a != k) = true := by simp [h]
        have h2 : (k == a) = false := by
          simp [Ne.symm h]
        simp only [eraseKey, List.filter, h1] at ih ⊢
        simpa [List.lookup, h2] using ih

theorem dedupe_hit (s : DedupState) (k : String) (i : Nat)
    (h : s.pending.lookup k = some i) :
    (dedupe s k).2 = i ∧ (dedupe s k).1.pending = s.pending ∧
    (dedupe s k).1.invocations = s.invocations ∧
    (dedupe s k).1.nextId = s.nextId := by
  simp [dedupe, h]

theorem dedupeN_hit (k : String) (i : Nat) :
    ∀ (n : Nat) (s : DedupState), s.pending.lookup k = some i →
      (dedupeN n s k).1.pending = s.pending ∧
      (dedupeN n s k).1.invocations = s.invocations ∧
      (dedupeN n s k).2 = List.replicate n i := by
  intro n
  induction n with
  | zero => intro s _; exact ⟨rfl, rfl, rfl⟩
  | succ m ih =>
      intro s h
      have hd := dedupe_hit s k i h
      have hlook : (dedupe s k).1.pending.lookup k = some i := by
        rw [hd.2.1]; exact h
      have hrec := ih (dedupe s k).1 hlook
      refine ⟨?_, ?_, ?_⟩
      · show (dedupeN m (dedupe s k).1 k).1.pending = s.pending
        rw [hrec.1, hd.2.1]
      · show (dedupeN m (dedupe s k).1 k).1.invocations = s.invocations
        rw [hrec.2.1, hd.2.2.1]
      · show (dedupe s k).2 :: (dedupeN m (dedupe s k).1 k).2 =
          List.replicate (m + 1) i
        rw [hrec.2.2, hd.1, List.replicate_succ]

/-- C3: whenever dedupe(k, supplier) is called N times concurrently with the
same key k while the first call's future is unsettled, the supplier is
invoked exactly once (invocations grows by exactly one across all N calls),
and all N callers receive the identical future (the same promise id, hence
the same resolved value or the same rejection). -/
theorem dedupe_collapse (s : DedupState) (k : String) (n : Nat)
    (h : s.pending.lookup k = none) :
    (dedupeN (n + 1) s k).1.invocations = s.invocations + 1
    ∧ (dedupeN (n + 1) s k).2 = List.replicate (n + 1) s.nextId := by
  have hfresh : dedupe s k =
      ({ pending := (k, s.nextId) :: s.pending,
         requestCounts := setEntry k 1 s.requestCounts,
         nextId := s.nextId + 1,
         invocations := s.invocations + 1 }, s.nextId) := by
    simp [dedupe, h]
  have hlook : (dedupe s k).1.pending.lookup k = some s.nextId := by
    rw [hfresh]; exact lookup_cons_self _ _ _
  have hrec := dedupeN_hit k s.nextId n (dedupe s k).1 hlook
  constructor
  · show (dedupeN n (dedupe s k).1 k).1.invocations = s.invocations + 1
    rw [hrec.2.1, hfresh]
  · show (dedupe s k).2 :: (dedupeN n (dedupe s k).1 k).2 =
      List.replicate (n + 1) s.nextId
    rw [hrec.2.2, hfresh, List.replicate_succ]

/-- Witness for dedupe_collapse: three concurrent callers on a fresh
deduplicator share promise id 0 and trigger exactly one supplier
invocation. -/
theorem dedupe_collapse_witness :
    ((DedupState.mk [] [] 0 0).pending.lookup "projects:list" = none)
    ∧ ((dedupeN 3 (DedupState.mk [] [] 0 0) "projects:list").1.invocations = 0 + 1
       ∧ (dedupeN 3 (DedupState.mk [] [] 0 0) "projects:list").2 =
           List.replicate 3 0) :=
  ⟨rfl, dedupe_collapse (DedupState.mk [] [] 0 0) "projects:list" 2 rfl⟩

/-- C9: when the future registered under a key settles, the .finally
cleanup unconditionally removes the key from the pending map (so a lookup
finds nothing), and therefore the next dedupe call with that key takes the
fresh branch: it invokes the supplier again (invocations grows) and hands
out a fresh promise rather than replaying the settled one.  The .finally
callback runs before the registered future itself settles, so the removal
precedes observability of the result. -/
theorem dedupe_freshness (s : DedupState) (k : String) :
    (settle s k).pending.lookup k = none
    ∧ (dedupe (settle s k) k).1.invocations = s.invocations + 1
    ∧ (dedupe (settle s k) k).2 = s.nextId := by
  have h : (settle s k).pending.lookup k = none := lookup_eraseKey k s.pending
  refine ⟨h, ?_, ?_⟩ <;> simp [dedupe, settle, lookup_eraseKey]

/-! ## Rate limiter wait queue (src/shared/rate-limiter.ts)

The queue holds QueuedRequest records (lines 43-49).  The priority is the
ordering key; an id records insertion identity (standing for the queued
thunk together with its resolve/reject pair).  The timestamp field is used
for diagnostics only and is omitted. -/

structure QItem where
  priority : Int
  id : Nat
deriving DecidableEq, Repr

/-- Relation used by the queue order: an entry may precede another when its
priority is at least as high. -/
def qge (a b : QItem) : Prop := b.priority ≤ a.priority

/-- Stable insertion of an element that arrived earlier than every element
of the (already sorted) list: it goes in front of the first entry with
priority less than or equal to its own, so equal priorities keep arrival
order. -/
def insertDesc (x : QItem) : List QItem → List QItem
  | [] => [x]
  | y :: ys => if y.priority ≤ x.priority then x :: y :: ys else y :: insertDesc x ys

/-- Embedding of the sort on line 143, `queue.sort((a, b) => b.priority -
a.priority)`: Array.prototype.sort is stable (ES2019), and a stable sort
under that comparator is exactly stable insertion sort by descending
priority. -/
def sortQueue : List QItem → List QItem
  | [] => []
  | x :: xs => insertDesc x (sortQueue xs)

theorem mem_insertDesc (x z : QItem) (l : List QItem) :
    z ∈ insertDesc x l ↔ z = x ∨ z ∈ l := by
  induction l with
  | nil => simp [insertDesc]
  | cons y ys ih =>
      by_cases h : y.priority ≤ x.priority
      · simp [insertDesc, h]
      · simp [insertDesc, h, ih]
        tauto

theorem length_insertDesc (x : QItem) (l : List QItem) :
    (insertDesc x l).length = l.length + 1 := by
  induction l with
  | nil => rfl
  | cons y ys ih =>
      by_cases h : y.priority ≤ x.priority <;> simp [insertDesc, h, ih]

theorem length_sortQueue (l : List QItem) : (sortQueue l).length = l.length := by
  induction l with
  | nil => rfl
  | cons x xs ih => simp [sortQueue, length_insertDesc, ih]

theorem pairwise_insertDesc (x : QItem) (l : List QItem)
    (h : l.Pairwise qge) : (insertDesc x l).Pairwise qge := by
  induction l with
  | nil => simp [insertDesc, qge]
  | cons y ys ih =>
      rcases List.pairwise_cons.mp h with ⟨hy, hys⟩
      by_cases hc : y.priority ≤ x.priority
      · simp only [insertDesc, if_pos hc]
        refine List.pairwise_cons.mpr ⟨?_, h⟩
        intro z hz
        rcases List.mem_cons.mp hz with rfl | hz'
        · exact hc
        · exact le_trans (hy z hz') hc
      · simp only [insertDesc, if_neg hc]
        refine List.pairwise_cons.mpr ⟨?_, ih hys⟩
        intro z hz
        rcases (mem_insertDesc x z ys).mp hz with rfl | hz'
        · exact le_of_lt (not_le.mp hc)
        · exact hy z hz'

theorem pairwise_sortQueue (l : List QItem) : (sortQueue l).Pairwise qge := by
  induction l with
  | nil => simp [sortQueue]
  | cons x xs ih => exact pairwise_insertDesc x (sortQueue xs) ih

theorem sortQueue_of_pairwise (l : List QItem) (h : l.Pairwise qge) :
    sortQueue l = l := by
  induction l with
  | nil => rfl
  | cons x xs ih =>
      rcases List.pairwise_cons.mp h with ⟨hx, hxs⟩
      show insertDesc x (sortQueue xs) = x :: xs
      rw [ih hxs]
      cases xs with
      | nil => rfl
      | cons z zs =>
          have : z.priority ≤ x.priority := hx z (List.mem_cons_self z zs)
          simp [insertDesc, this]

theorem beq_false_of_ne {a b : Int} (h : ¬ a = b) : (a == b) = false := by
  simpa using h

theorem filter_insertDesc (c : Int) (x : QItem) (l : List QItem) :
    (insertDesc x l).filter (fun a => a.priority == c)
      = if x.priority = c then x :: l.filter (fun a => a.priority == c)
        else l.filter (fun a => a.priority == c) := by
  induction l with
  | nil =>
      by_cases h : x.priority = c
      · simp [insertDesc, List.filter, h, beq_iff_eq]
      · simp [insertDesc, List.filter, h, beq_false_of_ne h]
  | cons y ys ih =>
      by_cases hc : y.priority ≤ x.priority
      · simp only [insertDesc, if_pos hc]
        by_cases hx : x.priority = c
        · simp [List.filter, hx, beq_iff_eq]
        · simp [List.filter, hx, beq_false_of_ne hx]
      · have hlt : x.priority < y.priority := not_le.mp hc
        simp only [insertDesc, if_neg hc]
        by_cases hy : y.priority = c
        · have hx : ¬ x.priority = c := by omega
          simp [List.filter, hy, hx, ih, beq_iff_eq, beq_false_of_ne hx]
        · by_cases hx : x.priority = c
          · simp [List.filter, hy, hx, ih, beq_iff_eq, beq_false_of_ne hy]
          · simp [List.filter, hy, hx, ih, beq_false_of_ne hy, beq_false_of_ne hx]

theorem filter_sortQueue (c : Int) (l : List QItem) :
    (sortQueue l).filter (fun a => a.priority == c)
      = l.filter (fun a => a.priority == c) := by
  induction l with
  | nil => rfl
  | cons x xs ih =>
      show (insertDesc x (sortQueue xs)).filter _ = _
      rw [filter_insertDesc c x (sortQueue xs), ih]
      by_cases hx : x.priority = c
      · simp [List.filter, hx, beq_iff_eq]
      · simp [List.filter, hx, beq_false_of_ne hx]

/-- Drain loop of processQueue (lines 118-169) at queue granularity: while
the queue is nonempty, sort by priority descending (stable, line 143) and
shift the head (line 146); the shifted entry is the next operation
executed.  Token refills and delay sleeps (lines 119-140) suspend the loop
but never reorder the queue, so they are dropped from this ordering model.
Fuel bounds the iteration count; the initial length suffices because each
iteration removes exactly one entry. -/
def processQueueFuel : Nat → List QItem → List QItem
  | 0, _ => []
  | n + 1, q =>
      match sortQueue q with
      | [] => []
      | y :: ys => y :: processQueueFuel n ys

/-- Execution order of a queue drained by processQueue, assuming no further
enqueues during the drain. -/
def processOrder (q : List QItem) : List QItem := processQueueFuel q.length q

theorem processQueueFuel_eq (n : Nat) : ∀ q : List QItem, q.length ≤ n →
    processQueueFuel n q = sortQueue q := by
  induction n with
  | zero =>
      intro q hq
      cases q with
      | nil => rfl
      | cons x xs => simp at hq
  | succ m ih =>
      intro q hq
      cases hsq : sortQueue q with
      | nil => simp [processQueueFuel, hsq]
      | cons y ys =>
          have hlen : ys.length ≤ m := by
            have hl := length_sortQueue q
            rw [hsq] at hl
            simp at hl
            omega
          have hpw : (y :: ys).Pairwise qge := hsq ▸ pairwise_sortQueue q
          have hys : sortQueue ys = ys :=
            sortQueue_of_pairwise ys (List.Pairwise.of_cons hpw)
          simp [processQueueFuel, hsq, ih ys hlen, hys]

/-- C6: queued operations execute in priority-descending order with a
stable tie-break.  The first conjunct states the execution order is
priority-descending; the second states stability (for every priority value,
the entries of that priority appear in their original insertion order: the
filter by that priority is unchanged); the last two instantiate the claim's
examples, priorities [1, 5, 3] executing as 5, 3, 1, and two equal-priority
entries A then B executing as A then B. -/
theorem processQueue_priority_order :
    (∀ q : List QItem, (processOrder q).Pairwise qge)
    ∧ (∀ (q : List QItem) (c : Int),
        (processOrder q).filter (fun a => a.priority == c)
          = q.filter (fun a => a.priority == c))
    ∧ processOrder [⟨1, 0⟩, ⟨5, 1⟩, ⟨3, 2⟩] = [⟨5, 1⟩, ⟨3, 2⟩, ⟨1, 0⟩]
    ∧ processOrder [⟨7, 10⟩, ⟨7, 11⟩] = [⟨7, 10⟩, ⟨7, 11⟩] := by
  refine ⟨?_, ?_, by decide, by decide⟩
  · intro q
    rw [processOrder, processQueueFuel_eq q.length q le_rfl]
    exact pairwise_sortQueue q
  · intro q c
    rw [processOrder, processQueueFuel_eq q.length q le_rfl]
    exact filter_sortQueue c q

/-! ## Token bucket (src/shared/rate-limiter.ts, lines 56-78 and 177-257) -/

/-- Token bucket fields of the RateLimiter: the current token count and the
timestamp of the last applied refill.  The count is a JS number whose type
admits fractions, so it is embedded as a rational; the refill increment is
floored exactly as in the source. -/
structure RefillState where
  tokens : ℚ
  lastRefill : Nat
deriving DecidableEq, Repr

/-- Embedding of refillTokens (lines 177-188).  The source locals are
inlined: elapsed = now - lastRefill, tokensToAdd = elapsed *
requestsPerMinute / 60000.  When tokensToAdd >= 1, the count becomes
Math.min(maxTokens, tokens + Math.floor(tokensToAdd)) and lastRefill
becomes now; otherwise nothing changes. -/
def refillTokens (rpm maxT now : Nat) (s : RefillState) : RefillState :=
  if 1 ≤ (((now - s.lastRefill) * rpm : ℕ) : ℚ) / 60000 then
    { tokens := min (maxT : ℚ)
        (s.tokens + (⌊(((now - s.lastRefill) * rpm : ℕ) : ℚ) / 60000⌋ : ℚ)),
      lastRefill := now }
  else s

/-- Modelled from the spec: claim C8's reading of the refill, in which the
token count increases by exactly tokensToAdd (no flooring) before clamping.
This definition follows the claim's words and exists only for the
refinement comparison against refillTokens, which follows the source. -/
def refillTokensClaimed (rpm maxT now : Nat) (s : RefillState) : RefillState :=
  if 1 ≤ (((now - s.lastRefill) * rpm : ℕ) : ℚ) / 60000 then
    { tokens := min (maxT : ℚ)
        (s.tokens + (((now - s.lastRefill) * rpm : ℕ) : ℚ) / 60000),
      lastRefill := now }
  else s

theorem refillTokens_fire (rpm maxT now : Nat) (s : RefillState)
    (h : 1 ≤ (((now - s.lastRefill) * rpm : ℕ) : ℚ) / 60000) :
    refillTokens rpm maxT now s =
      { tokens := min (maxT : ℚ)
          (s.tokens + (⌊(((now - s.lastRefill) * rpm : ℕ) : ℚ) / 60000⌋ : ℚ)),
        lastRefill := now } := by
  unfold refillTokens
  rw [if_pos h]

theorem refillTokens_skip (rpm maxT now : Nat) (s : RefillState)
    (h : ¬ 1 ≤ (((now - s.lastRefill) * rpm : ℕ) : ℚ) / 60000) :
    refillTokens rpm maxT now s = s := by
  unfold refillTokens
  rw [if_neg h]

theorem refillTokensClaimed_fire (rpm maxT now : Nat) (s : RefillState)
    (h : 1 ≤ (((now - s.lastRefill) * rpm : ℕ) : ℚ) / 60000) :
    refillTokensClaimed rpm maxT now s =
      { tokens := min (maxT : ℚ)
          (s.tokens + (((now - s.lastRefill) * rpm : ℕ) : ℚ) / 60000),
        lastRefill := now } := by
  unfold refillTokensClaimed
  rw [if_pos h]

theorem refillTokensClaimed_skip (rpm maxT now : Nat) (s : RefillState)
    (h : ¬ 1 ≤ (((now - s.lastRefill) * rpm : ℕ) : ℚ) / 60000) :
    refillTokensClaimed rpm maxT now s = s := by
  unfold refillTokensClaimed
  rw [if_neg h]

theorem refillTokens_bounds (rpm maxT now : Nat) (s : RefillState)
    (h0 : 0 ≤ s.tokens) (h1 : s.tokens ≤ (maxT : ℚ)) :
    0 ≤ (refillTokens rpm maxT now s).tokens
    ∧ (refillTokens rpm maxT now s).tokens ≤ (maxT : ℚ) := by
  by_cases h : (1 : ℚ) ≤ (((now - s.lastRefill) * rpm : ℕ) : ℚ) / 60000
  · rw [refillTokens_fire rpm maxT now s h]
    have hfl : (1 : ℤ) ≤ ⌊(((now - s.lastRefill) * rpm : ℕ) : ℚ) / 60000⌋ :=
      Int.le_floor.mpr (by exact_mod_cast h)
    have hflq : (0 : ℚ) ≤ (⌊(((now - s.lastRefill) * rpm : ℕ) : ℚ) / 60000⌋ : ℚ) := by
      have h2 : (0 : ℤ) ≤ ⌊(((now - s.lastRefill) * rpm : ℕ) : ℚ) / 60000⌋ :=
        le_trans (by norm_num) hfl
      exact_mod_cast h2
    exact ⟨le_min (Nat.cast_nonneg maxT) (by linarith), min_le_left _ _⟩
  · rw [refillTokens_skip rpm maxT now s h]
    exact ⟨h0, h1⟩

/-- C8 counterexample: with requestsPerMinute = 60 and 1500ms elapsed,
tokensToAdd = 1.5; the source adds Math.floor(1.5) = 1 token, not the
exact 1.5 the claim states. -/
theorem refill_exact_counterexample :
    refillTokens 60 60 1500 ⟨0, 0⟩ ≠ refillTokensClaimed 60 60 1500 ⟨0, 0⟩
    ∧ (refillTokens 60 60 1500 ⟨0, 0⟩).tokens = 1
    ∧ (refillTokensClaimed 60 60 1500 ⟨0, 0⟩).tokens = 3 / 2 := by
  have hcond : (1 : ℚ) ≤ (((1500 - (⟨0, 0⟩ : RefillState).lastRefill) * 60 : ℕ) : ℚ) / 60000 := by
    norm_num
  have hfl : ⌊(((1500 - (⟨0, 0⟩ : RefillState).lastRefill) * 60 : ℕ) : ℚ) / 60000⌋ = 1 := by
    rw [Int.floor_eq_iff]
    norm_num
  have t1 : (refillTokens 60 60 1500 ⟨0, 0⟩).tokens = 1 := by
    rw [refillTokens_fire 60 60 1500 ⟨0, 0⟩ hcond]
    show min ((60 : ℕ) : ℚ) (0 + _) = 1
    rw [hfl]
    norm_num
  have t2 : (refillTokensClaimed 60 60 1500 ⟨0, 0⟩).tokens = 3 / 2 := by
    rw [refillTokensClaimed_fire 60 60 1500 ⟨0, 0⟩ hcond]
    show min ((60 : ℕ) : ℚ) (0 + _) = 3 / 2
    norm_num
  refine ⟨?_, t1, t2⟩
  intro hcontra
  have := congrArg RefillState.tokens hcontra
  rw [t1, t2] at this
  norm_num at this

/-- C8 amended: the refill fires only when tokensToAdd >= 1 and then sets
the count to min(maxTokens, tokens + floor(tokensToAdd)) while advancing
lastRefill to now (first conjunct: the state is either untouched or exactly
that); the floored refill never exceeds the claim's exact-increment value
and undershoots it by strictly less than one token (second and third
conjuncts); both readings fire on exactly the same inputs (last
conjunct). -/
theorem refill_floor_amended (rpm maxT now : Nat) (s : RefillState) :
    (refillTokens rpm maxT now s = s ∨
      refillTokens rpm maxT now s =
        { tokens := min (maxT : ℚ)
            (s.tokens + (⌊(((now - s.lastRefill) * rpm : ℕ) : ℚ) / 60000⌋ : ℚ)),
          lastRefill := now })
    ∧ (refillTokens rpm maxT now s).tokens ≤ (refillTokensClaimed rpm maxT now s).tokens
    ∧ (refillTokensClaimed rpm maxT now s).tokens - 1 < (refillTokens rpm maxT now s).tokens
    ∧ (refillTokens rpm maxT now s).lastRefill
        = (refillTokensClaimed rpm maxT now s).lastRefill := by
  by_cases h : (1 : ℚ) ≤ (((now - s.lastRefill) * rpm : ℕ) : ℚ) / 60000
  · rw [refillTokens_fire rpm maxT now s h, refillTokensClaimed_fire rpm maxT now s h]
    have hle : (⌊(((now - s.lastRefill) * rpm : ℕ) : ℚ) / 60000⌋ : ℚ)
        ≤ (((now - s.lastRefill) * rpm : ℕ) : ℚ) / 60000 :=
      Int.floor_le _
    have hlt : (((now - s.lastRefill) * rpm : ℕ) : ℚ) / 60000
        < (⌊(((now - s.lastRefill) * rpm : ℕ) : ℚ) / 60000⌋ : ℚ) + 1 :=
      Int.lt_floor_add_one _
    have h1 := min_le_left (maxT : ℚ)
      (s.tokens + (((now - s.lastRefill) * rpm : ℕ) : ℚ) / 60000)
    have h2 := min_le_right (maxT : ℚ)
      (s.tokens + (((now - s.lastRefill) * rpm : ℕ) : ℚ) / 60000)
    refine ⟨Or.inr rfl, min_le_min le_rfl (by linarith), ?_, rfl⟩
    exact lt_min_iff.mpr ⟨by linarith, by linarith⟩
  · rw [refillTokens_skip rpm maxT now s h, refillTokensClaimed_skip rpm maxT now s h]
    exact ⟨Or.inl rfl, le_rfl, by linarith, rfl⟩

/-- One atomic token-count action of the rate limiter: a refill with a given
elapsed wall-clock time, a token consumption inside processQueue, an
updateFromHeaders call with server-reported limit and remaining (parseInt
results, hence arbitrary integers), or a reset. -/
inductive RLOp where
  | refill (elapsed : Nat)
  | consume
  | updateFromHeaders (limit remaining : Int)
  | reset
deriving DecidableEq, Repr

/-- Effect of one operation on the token count (rpm = requestsPerMinute =
maxTokens).  refill per refillTokens (lines 177-188, with the elapsed time
supplied directly); consume per lines 123 and 152 (the decrement runs only
after the tokens >= 1 check of the same iteration passes);
updateFromHeaders per lines 197-208 (when remaining < limit * 0.1, clamp
the count down to Math.min(tokens, remaining)); reset per lines 252-257
(restore maxTokens). -/
def rlStep (rpm maxT : Nat) (t : ℚ) : RLOp → ℚ
  | RLOp.refill elapsed => (refillTokens rpm maxT elapsed ⟨t, 0⟩).tokens
  | RLOp.consume => if 1 ≤ t then t - 1 else t
  | RLOp.updateFromHeaders limit remaining =>
      if (remaining : ℚ) < (limit : ℚ) * (1 / 10) then min t (remaining : ℚ) else t
  | RLOp.reset => (maxT : ℚ)

/-- Token count after a sequence of rate-limiter operations. -/
def rlRun (rpm maxT : Nat) (t : ℚ) (ops : List RLOp) : ℚ :=
  ops.foldl (rlStep rpm maxT) t

/-- C5 counterexample: a single updateFromHeaders call with a negative
server-reported remaining (servers send X-RateLimit-Remaining: -1 for
unlimited, and parseInt forwards it) drives the token count below zero,
violating the claimed [0, maxTokens] bound. -/
theorem tokens_bound_counterexample :
    rlRun 60 60 60 [RLOp.updateFromHeaders 10 (-1)] = -1
    ∧ ¬ (0 ≤ rlRun 60 60 60 [RLOp.updateFromHeaders 10 (-1)]) := by
  have h : rlRun 60 60 60 [RLOp.updateFromHeaders 10 (-1)] = -1 := by
    show rlStep 60 60 60 (RLOp.updateFromHeaders 10 (-1)) = -1
    show (if ((-1 : ℤ) : ℚ) < ((10 : ℤ) : ℚ) * (1 / 10) then min (60 : ℚ) ((-1 : ℤ) : ℚ)
      else (60 : ℚ)) = -1
    rw [if_pos (by norm_num)]
    norm_num [min_def]
  refine ⟨h, ?_⟩
  rw [h]
  norm_num

/-- C5 amended: for every sequence of rate-limiter operations in which each
updateFromHeaders call carries a non-negative remaining, the token count
stays within [0, maxTokens]; a negative remaining (see the counterexample)
is the only way out of the interval. -/
theorem tokens_bounded (rpm maxT : Nat) (ops : List RLOp) : ∀ t : ℚ,
    0 ≤ t → t ≤ (maxT : ℚ) →
    (∀ l r : Int, RLOp.updateFromHeaders l r ∈ ops → 0 ≤ r) →
    0 ≤ rlRun rpm maxT t ops ∧ rlRun rpm maxT t ops ≤ (maxT : ℚ) := by
  induction ops with
  | nil => intro t h0 h1 _; exact ⟨h0, h1⟩
  | cons op rest ih =>
      intro t h0 h1 hops
      have hmem : ∀ l r : Int, RLOp.updateFromHeaders l r ∈ rest → 0 ≤ r :=
        fun l r hm => hops l r (List.mem_cons_of_mem op hm)
      have hstep : 0 ≤ rlStep rpm maxT t op ∧ rlStep rpm maxT t op ≤ (maxT : ℚ) := by
        cases op with
        | refill elapsed => exact refillTokens_bounds rpm maxT elapsed ⟨t, 0⟩ h0 h1
        | consume =>
            show 0 ≤ (if 1 ≤ t then t - 1 else t) ∧ (if 1 ≤ t then t - 1 else t) ≤ (maxT : ℚ)
            by_cases h : (1 : ℚ) ≤ t
            · simp only [if_pos h]
              exact ⟨by linarith, by linarith⟩
            · simp only [if_neg h]
              exact ⟨h0, h1⟩
        | updateFromHeaders l r =>
            have hr : (0 : ℚ) ≤ (r : ℚ) := by
              exact_mod_cast hops l r (List.mem_cons_self _ _)
            show 0 ≤ (if (r : ℚ) < (l : ℚ) * (1 / 10) then min t (r : ℚ) else t)
              ∧ (if (r : ℚ) < (l : ℚ) * (1 / 10) then min t (r : ℚ) else t) ≤ (maxT : ℚ)
            by_cases h : (r : ℚ) < (l : ℚ) * (1 / 10)
            · simp only [if_pos h]
              exact ⟨le_min h0 hr, le_trans (min_le_left _ _) h1⟩
            · simp only [if_neg h]
              exact ⟨h0, h1⟩
        | reset => exact ⟨Nat.cast_nonneg maxT, le_refl _⟩
      have hrec := ih (rlStep rpm maxT t op) hstep.1 hstep.2 hmem
      simpa [rlRun, List.foldl_cons] using hrec

/-- Witness for tokens_bounded: a concrete run (refill, consume, reset) from
the initial full bucket stays within the bound. -/
theorem tokens_bounded_witness :
    0 ≤ rlRun 60 60 60 [RLOp.refill 2000, RLOp.consume, RLOp.reset]
    ∧ rlRun 60 60 60 [RLOp.refill 2000, RLOp.consume, RLOp.reset] ≤ ((60 : ℕ) : ℚ) :=
  tokens_bounded 60 60 [RLOp.refill 2000, RLOp.consume, RLOp.reset] 60
    (by norm_num) (by norm_num) (by intro l r hm; simp at hm)

/-! ## Error taxonomy (src/shared/types.ts, lines 198-228) and message
constants (src/shared/constants.ts) -/

def AUTH_REQUIRED : String := "Please log in to use this feature"

def EMAIL_NOT_VERIFIED : String :=
  "Please verify your email address before using the extension. Check your inbox for a verification email."

def SERVER_ERROR : String :=
  "The Ref-Lex server encountered an error. Please try again in a few moments."

def RATE_LIMIT_EXCEEDED : String :=
  "You are making requests too quickly. Please wait a moment and try again."

/-- Message of the bare Error thrown by throttle when the queue is full
(src/shared/rate-limiter.ts, line 91). -/
def queueFullMessage : String := "Rate limiter queue is full. Please try again later."

/-- Thrown JS values crossing the API layer, per the class hierarchy of
src/shared/types.ts (lines 198-228): AuthenticationError (fixed code
AUTH_ERROR, status 401), ValidationError (fixed code VALIDATION_ERROR,
status 400), NetworkError (fixed code NETWORK_ERROR), a generic
ExtensionError with explicit code and optional status, and a bare JS Error
carrying only a message (the rate limiter's queue-full rejection is one of
those). -/
inductive ApiError where
  | authentication (message : String)
  | validation (message : String)
  | network (message : String)
  | extension (message : String) (code : String) (statusCode : Option Nat)
  | plain (message : String)
deriving DecidableEq, Repr

/-! ## throttle admission (src/shared/rate-limiter.ts, lines 88-106) -/

/-- Configuration record after constructor defaulting (lines 70-79). -/
structure RateLimiterConfig where
  requestsPerMinute : Nat
  maxQueueSize : Nat
  minRequestDelay : Nat
deriving DecidableEq, Repr

/-- Rate limiter state as observed by throttle: token bucket plus wait
queue (lines 56-63). -/
structure RLState where
  tokens : ℚ
  lastRefill : Nat
  queue : List QItem
deriving DecidableEq, Repr

/-- Synchronous prefix of throttle (lines 88-106): when the queue already
holds maxQueueSize entries, throw (an async function hence a rejected
promise) without touching any state; otherwise push the request at the back
of the queue.  The subsequent drain is modelled by processOrder. -/
def throttle (cfg : RateLimiterConfig) (s : RLState) (req : QItem) :
    Except ApiError Unit × RLState :=
  if cfg.maxQueueSize ≤ s.queue.length then
    (Except.error (ApiError.plain queueFullMessage), s)
  else
    (Except.ok (), { s with queue := s.queue ++ [req] })

/-- C7: when the wait queue already holds maxQueueSize entries, the next
throttle call rejects immediately with the capacity error: nothing is
enqueued, the operation never executes, and the queue and token state come
back unchanged. -/
theorem throttle_queue_full (cfg : RateLimiterConfig) (s : RLState) (req : QItem)
    (h : cfg.maxQueueSize ≤ s.queue.length) :
    throttle cfg s req = (Except.error (ApiError.plain queueFullMessage), s) := by
  unfold throttle
  rw [if_pos h]

/-- Witness for throttle_queue_full: a limiter with maxQueueSize = 1 and one
queued entry rejects the next throttle call and keeps its state intact. -/
theorem throttle_queue_full_witness :
    ((1 : Nat) ≤ (RLState.mk 60 0 [⟨0, 0⟩]).queue.length)
    ∧ throttle ⟨60, 1, 100⟩ (RLState.mk 60 0 [⟨0, 0⟩]) ⟨5, 1⟩
        = (Except.error (ApiError.plain queueFullMessage), RLState.mk 60 0 [⟨0, 0⟩]) :=
  ⟨by decide,
   throttle_queue_full ⟨60, 1, 100⟩ (RLState.mk 60 0 [⟨0, 0⟩]) ⟨5, 1⟩ (by decide)⟩

/-! ## API client error classification and retry (src/background/api.ts) -/

/-- JS or-chain step for an optional string: a || b falls through to b when
a is absent or empty (empty strings are falsy). -/
def jsOr (a : Option String) (b : String) : String :=
  match a with
  | some str => if str = "" then b else str
  | none => b

/-- JS falsy-or on two strings. -/
def jsOrS (str fallback : String) : String := if str = "" then fallback else str

/-- Parsed JSON error body of a non-2xx response; none stands for a body
that failed to parse as JSON (the catch on lines 223-225). -/
structure ErrorBody where
  error : Option String
  message : Option String
deriving DecidableEq, Repr

/-- The errorMessage computed on lines 218-225: errorData.error ||
errorData.message || response.statusText, with the statusText fallback when
the body is not JSON. -/
def errorMessageOf (body : Option ErrorBody) (statusText : String) : String :=
  match body with
  | some b => jsOr b.error (jsOr b.message statusText)
  | none => statusText

/-- The errorMessage.includes check on line 232: splitOn yields more than
one piece exactly when the separator occurs in the string. -/
def containsEmail (str : String) : Bool := (str.splitOn "email").length > 1

/-- Embedding of handleErrorResponse (lines 217-254): map the response
status to the thrown typed error.  Note the 429 branch ignores errorMessage
and always throws with the configured default (claim C4 turns on this). -/
def handleErrorResponse (status : Nat) (body : Option ErrorBody)
    (statusText : String) : ApiError :=
  if status = 401 then
    ApiError.authentication (jsOrS (errorMessageOf body statusText) AUTH_REQUIRED)
  else if status = 403 then
    if containsEmail (errorMessageOf body statusText) then
      ApiError.authentication EMAIL_NOT_VERIFIED
    else ApiError.authentication (errorMessageOf body statusText)
  else if status = 400 then
    ApiError.validation (errorMessageOf body statusText)
  else if status = 429 then
    ApiError.extension RATE_LIMIT_EXCEEDED "RATE_LIMIT" (some 429)
  else
    ApiError.extension (jsOrS (errorMessageOf body statusText) SERVER_ERROR)
      "API_ERROR" (some status)

/-- One network response as the client observes it: HTTP status, status
text, the parsed JSON error body (used by non-2xx handling) and the decoded
success payload, kept opaque as a string. -/
structure NetResponse where
  status : Nat
  statusText : String
  errorBody : Option ErrorBody
  data : String
deriving DecidableEq, Repr

/-- Response.ok of the fetch API: status in the 2xx range. -/
def isOkStatus (status : Nat) : Bool := decide (200 ≤ status ∧ status ≤ 299)

/-- Response-classification and retry skeleton of apiRequest (lines
150-215), driven by a script of network responses consumed one per
dispatch.  On a 401 with retryOn401 set, the cached CSRF token is cleared
and the whole request recurses exactly once with retry disabled (lines
183-186); otherwise a non-ok status is classified by handleErrorResponse
(classified errors are ExtensionError subclasses, so the catch on lines
196-199 rethrows them unchanged), and an ok status returns the decoded
body.  Returns the caller-visible outcome and the number of network calls
made.  An empty script cannot arise in the source (fetch yields a response
or throws) and is mapped to the generic unknown error with zero calls. -/
def apiRequest : Bool → List NetResponse → Except ApiError String × Nat
  | _, [] => (Except.error (ApiError.extension SERVER_ERROR "UNKNOWN_ERROR" none), 0)
  | retryOn401, r :: rest =>
    if r.status = 401 ∧ retryOn401 = true then
      let p := apiRequest false rest
      (p.1, p.2 + 1)
    else if isOkStatus r.status then
      (Except.ok r.data, 1)
    else
      (Except.error (handleErrorResponse r.status r.errorBody r.statusText), 1)

theorem apiRequest_noretry (r : NetResponse) (rest : List NetResponse) :
    apiRequest false (r :: rest) =
      (if isOkStatus r.status then (Except.ok r.data, 1)
       else (Except.error (handleErrorResponse r.status r.errorBody r.statusText), 1)) := by
  unfold apiRequest
  rw [if_neg (by simp)]

theorem apiRequest_noretry_calls (r : NetResponse) (rest : List NetResponse) :
    (apiRequest false (r :: rest)).2 = 1 := by
  rw [apiRequest_noretry]
  split <;> rfl

theorem apiRequest_retry_cons (r : NetResponse) (rest : List NetResponse)
    (h : r.status = 401) :
    apiRequest true (r :: rest) =
      ((apiRequest false rest).1, (apiRequest false rest).2 + 1) := by
  show (if r.status = 401 ∧ (true : Bool) = true then
      ((apiRequest false rest).1, (apiRequest false rest).2 + 1)
    else if isOkStatus r.status then (Except.ok r.data, 1)
    else (Except.error (handleErrorResponse r.status r.errorBody r.statusText), 1)) = _
  rw [if_pos ⟨h, rfl⟩]

theorem apiRequest_calls_le (retry : Bool) (rs : List NetResponse) :
    (apiRequest retry rs).2 ≤ 2 := by
  cases rs with
  | nil => norm_num [apiRequest]
  | cons r rest =>
      unfold apiRequest
      by_cases h : r.status = 401 ∧ retry = true
      · rw [if_pos h]
        show (apiRequest false rest).2 + 1 ≤ 2
        cases rest with
        | nil => norm_num [apiRequest]
        | cons r2 rest2 => rw [apiRequest_noretry_calls]
      · rw [if_neg h]
        split <;> norm_num

theorem handleErrorResponse_401 (body : Option ErrorBody) (statusText : String) :
    handleErrorResponse 401 body statusText =
      ApiError.authentication (jsOrS (errorMessageOf body statusText) AUTH_REQUIRED) := by
  unfold handleErrorResponse
  rw [if_pos rfl]

/-- C2: when the first response is a 401 and retryOn401 is enabled, the
request is reissued exactly once with retry disabled, so exactly two
network calls happen; a 401 on the retry as well surfaces as the single
AuthenticationError produced by handleErrorResponse; a 2xx on the retry
surfaces as the decoded success, the intermediate 401 never being visible
to the caller; and no logical call ever makes more than two network
calls. -/
theorem apiRequest_single_retry (r1 r2 : NetResponse) (rest : List NetResponse)
    (h1 : r1.status = 401) :
    (apiRequest true (r1 :: r2 :: rest)).2 = 2
    ∧ (r2.status = 401 →
        (apiRequest true (r1 :: r2 :: rest)).1 =
          Except.error (ApiError.authentication
            (jsOrS (errorMessageOf r2.errorBody r2.statusText) AUTH_REQUIRED)))
    ∧ (isOkStatus r2.status = true →
        (apiRequest true (r1 :: r2 :: rest)).1 = Except.ok r2.data)
    ∧ (∀ (retry : Bool) (rs : List NetResponse), (apiRequest retry rs).2 ≤ 2) := by
  have hmain := apiRequest_retry_cons r1 (r2 :: rest) h1
  refine ⟨?_, ?_, ?_, apiRequest_calls_le⟩
  · rw [hmain]
    show (apiRequest false (r2 :: rest)).2 + 1 = 2
    rw [apiRequest_noretry_calls]
  · intro h2
    rw [hmain]
    show (apiRequest false (r2 :: rest)).1 = _
    rw [apiRequest_noretry, h2]
    rw [if_neg (by decide)]
    rw [handleErrorResponse_401]
  · intro hok
    rw [hmain]
    show (apiRequest false (r2 :: rest)).1 = _
    rw [apiRequest_noretry, if_pos hok]

/-- Witness for apiRequest_single_retry: a 401 followed by a 200 yields the
decoded payload of the retry after exactly two network calls. -/
theorem apiRequest_single_retry_witness :
    ((NetResponse.mk 401 "Unauthorized" none "").status = 401)
    ∧ (apiRequest true [NetResponse.mk 401 "Unauthorized" none "",
        NetResponse.mk 200 "OK" none "payload"]).2 = 2
    ∧ (apiRequest true [NetResponse.mk 401 "Unauthorized" none "",
        NetResponse.mk 200 "OK" none "payload"]).1 = Except.ok "payload" := by
  have h := apiRequest_single_retry (NetResponse.mk 401 "Unauthorized" none "")
    (NetResponse.mk 200 "OK" none "payload") [] rfl
  exact ⟨rfl, h.1, h.2.2.1 (by decide)⟩

/-- C4 counterexample: the server answers 429 with body error field "slow
down", yet the thrown error carries the configured default message; the
error value the claim predicts is not the one thrown. -/
theorem rateLimit_message_counterexample :
    handleErrorResponse 429 (some ⟨some "slow down", none⟩) "Too Many Requests"
      = ApiError.extension RATE_LIMIT_EXCEEDED "RATE_LIMIT" (some 429)
    ∧ handleErrorResponse 429 (some ⟨some "slow down", none⟩) "Too Many Requests"
      ≠ ApiError.extension "slow down" "RATE_LIMIT" (some 429)
    ∧ RATE_LIMIT_EXCEEDED ≠ "slow down" := by
  refine ⟨?_, ?_, ?_⟩ <;> decide

/-- C4 amended: on HTTP 429 the client always throws the RATE_LIMIT-coded
ExtensionError with the configured default message and status 429, whatever
the response body says (the server-supplied error field is ignored); local
queue saturation instead rejects with a bare Error carrying the queue-full
message, which is not the RATE_LIMIT-coded error. -/
theorem rateLimit_error_amended :
    (∀ (body : Option ErrorBody) (statusText : String),
      handleErrorResponse 429 body statusText
        = ApiError.extension RATE_LIMIT_EXCEEDED "RATE_LIMIT" (some 429))
    ∧ (∀ (cfg : RateLimiterConfig) (s : RLState) (req : QItem),
        cfg.maxQueueSize ≤ s.queue.length →
        (throttle cfg s req).1 = Except.error (ApiError.plain queueFullMessage))
    ∧ ApiError.plain queueFullMessage
        ≠ ApiError.extension RATE_LIMIT_EXCEEDED "RATE_LIMIT" (some 429) := by
  refine ⟨fun body statusText => rfl, ?_, by decide⟩
  intro cfg s req h
  unfold throttle
  rw [if_pos h]

/-- Witness for rateLimit_error_amended: a concrete 429 response and a full
queue exercise both branches. -/
theorem rateLimit_error_amended_witness :
    handleErrorResponse 429 (some ⟨none, some "x"⟩) "Too Many Requests"
      = ApiError.extension RATE_LIMIT_EXCEEDED "RATE_LIMIT" (some 429)
    ∧ (throttle ⟨60, 1, 100⟩ (RLState.mk 60 0 [⟨0, 0⟩]) ⟨0, 1⟩).1
      = Except.error (ApiError.plain queueFullMessage) :=
  ⟨rateLimit_error_amended.1 (some ⟨none, some "x"⟩) "Too Many Requests",
   rateLimit_error_amended.2.1 ⟨60, 1, 100⟩ (RLState.mk 60 0 [⟨0, 0⟩]) ⟨0, 1⟩ (by decide)⟩

/-! ## Read-operation orchestration (src/background/api.ts, lines 260-322) -/

/-- Shape of the orchestration wrapper around a network dispatch: the bare
dispatch thunk (an apiRequest call), a rateLimiter.throttle wrapper, or a
globalDeduplicator.dedupe wrapper with its operation key. -/
inductive OrchExpr where
  | dispatch
  | throttleWrap (inner : OrchExpr)
  | dedupeWrap (key : String) (inner : OrchExpr)
deriving DecidableEq, Repr

/-- The five read operations of the API client. -/
inductive ReadOp where
  | checkAuthStatus
  | getProjects
  | getProject (id : Nat)
  | getCategories (projectId : Nat)
  | getReferences (projectId : Nat)
deriving DecidableEq, Repr

/-- Deduplication key used by each read operation (lines 262, 275, 284,
304, 317). -/
def readOpKey : ReadOp → String
  | ReadOp.checkAuthStatus => "auth:check"
  | ReadOp.getProjects => "projects:list"
  | ReadOp.getProject id => "project:" ++ toString id
  | ReadOp.getCategories projectId => "categories:" ++ toString projectId
  | ReadOp.getReferences projectId => "references:" ++ toString projectId

/-- Wrapper structure of each read operation as written in the source:
every one is globalDeduplicator.dedupe(key, () => apiRequest(...)), with no
rateLimiter.throttle wrapper anywhere (lines 260-322; throttle is defined
at src/shared/rate-limiter.ts line 88 but never invoked anywhere in the
repository — the limiter only receives updateFromHeaders calls, line
167). -/
def readOpExpr : ReadOp → OrchExpr
  | ReadOp.checkAuthStatus => OrchExpr.dedupeWrap "auth:check" OrchExpr.dispatch
  | ReadOp.getProjects => OrchExpr.dedupeWrap "projects:list" OrchExpr.dispatch
  | ReadOp.getProject id =>
      OrchExpr.dedupeWrap ("project:" ++ toString id) OrchExpr.dispatch
  | ReadOp.getCategories projectId =>
      OrchExpr.dedupeWrap ("categories:" ++ toString projectId) OrchExpr.dispatch
  | ReadOp.getReferences projectId =>
      OrchExpr.dedupeWrap ("references:" ++ toString projectId) OrchExpr.dispatch

/-- Modelled from the spec: the wrapper shape claim C1 asserts for every
read operation, dedupe(key, ...) around rateLimiter.throttle around the
dispatch.  Exists only for comparison against readOpExpr, which follows the
source. -/
def claimedReadExpr (key : String) : OrchExpr :=
  OrchExpr.dedupeWrap key (OrchExpr.throttleWrap OrchExpr.dispatch)

/-- True when the wrapper expression invokes rateLimiter.throttle
anywhere. -/
def usesThrottle : OrchExpr → Bool
  | OrchExpr.dispatch => false
  | OrchExpr.throttleWrap _ => true
  | OrchExpr.dedupeWrap _ inner => usesThrottle inner

/-- C1 counterexample: getProjects is not wrapped in the claimed
dedupe-around-throttle shape. -/
theorem read_wrap_counterexample :
    readOpExpr ReadOp.getProjects ≠ claimedReadExpr (readOpKey ReadOp.getProjects) := by
  decide

/-- C1 amended: every read operation wraps its dispatch as
deduplicator.dedupe(operationKey, () => apiRequest(...)), with no
rateLimiter.throttle in the read path: concurrent identical reads collapse
to one network call, but that call does not pass through the token-bucket
admission. -/
theorem read_wrap_amended (op : ReadOp) :
    readOpExpr op = OrchExpr.dedupeWrap (readOpKey op) OrchExpr.dispatch
    ∧ usesThrottle (readOpExpr op) = false := by
  cases op <;> exact ⟨rfl, rfl⟩

/-! ## CSRF attachment (src/background/api.ts, lines 140-148) -/

/-- Guard on line 141 deciding whether a CSRF token is attached:
authenticated request whose method is present, non-empty (the truthiness
check on fetchOptions.method) and not GET. -/
def needsCsrf (skipAuth : Bool) (method : Option String) : Bool :=
  !skipAuth && (match method with
    | some m => !(m == "") && !(m == "GET")
    | none => false)

/-- Compose-and-dispatch model of apiRequest including the CSRF step (lines
140-148): when a CSRF token is required, a failure of getCsrfToken is
caught, only a warning is logged, and the dispatch proceeds with no
X-CSRF-Token header; a success attaches the token.  Returns the
caller-visible outcome with its network call count, and the X-CSRF-Token
header value of the dispatch (none when the header is absent). -/
def apiRequestWith (skipAuth retryOn401 : Bool) (method : Option String)
    (csrf : Except ApiError String) (responses : List NetResponse) :
    (Except ApiError String × Nat) × Option String :=
  (apiRequest retryOn401 responses,
   if needsCsrf skipAuth method then
     match csrf with
     | Except.ok t => some t
     | Except.error _ => none
   else none)

theorem apiRequest_calls_pos (retry : Bool) (r : NetResponse)
    (rest : List NetResponse) : 1 ≤ (apiRequest retry (r :: rest)).2 := by
  unfold apiRequest
  by_cases h : r.status = 401 ∧ retry = true
  · rw [if_pos h]
    show 1 ≤ (apiRequest false rest).2 + 1
    omega
  · rw [if_neg h]
    split <;> norm_num

/-- C10: when fetching the anti-forgery token fails during a state-mutating
authenticated request, the request is not aborted and no error reaches the
caller at that point: the dispatch goes out with no X-CSRF-Token header
(first conjunct), the caller-visible outcome is exactly the one a
successful token fetch would have produced, i.e. only the server's
response matters (second conjunct), and the network call does happen (third
conjunct). -/
theorem csrf_failure_nonfatal (m : String) (e : ApiError) (t : String)
    (retry : Bool) (r : NetResponse) (rest : List NetResponse)
    (hm : m ≠ "GET") (hm' : m ≠ "") :
    (apiRequestWith false retry (some m) (Except.error e) (r :: rest)).2 = none
    ∧ (apiRequestWith false retry (some m) (Except.error e) (r :: rest)).1
      = (apiRequestWith false retry (some m) (Except.ok t) (r :: rest)).1
    ∧ 1 ≤ (apiRequestWith false retry (some m) (Except.error e) (r :: rest)).1.2 := by
  refine ⟨?_, rfl, apiRequest_calls_pos retry r rest⟩
  have hneed : needsCsrf false (some m) = true := by
    simp [needsCsrf, hm, hm']
  show (if needsCsrf false (some m) then
      match (Except.error e : Except ApiError String) with
      | Except.ok t => some t
      | Except.error _ => none
    else none) = none
  rw [if_pos hneed]

/-- Witness for csrf_failure_nonfatal: a POST whose token fetch fails still
dispatches, header-less, and returns the 200 payload. -/
theorem csrf_failure_nonfatal_witness :
    (("POST" : String) ≠ "GET") ∧ (("POST" : String) ≠ "")
    ∧ (apiRequestWith false true (some "POST") (Except.error (ApiError.network "boom"))
        [NetResponse.mk 200 "OK" none "payload"]).2 = none
    ∧ (apiRequestWith false true (some "POST") (Except.error (ApiError.network "boom"))
        [NetResponse.mk 200 "OK" none "payload"]).1
      = (apiRequestWith false true (some "POST") (Except.ok "tok")
          [NetResponse.mk 200 "OK" none "payload"]).1
    ∧ 1 ≤ (apiRequestWith false true (some "POST") (Except.error (ApiError.network "boom"))
        [NetResponse.mk 200 "OK" none "payload"]).1.2 := by
  have h := csrf_failure_nonfatal "POST" (ApiError.network "boom") "tok" true
    (NetResponse.mk 200 "OK" none "payload") [] (by decide) (by decide)
  exact ⟨by decide, by decide, h.1, h.2.1, h.2.2⟩

end RefLex
